import Mathlib

/-!
Shallow embedding of the SEM intensity-profile metrology pipeline
(`Analysis/ImageProcessing.py`).

Modelling conventions:
* Images are `List (List ℚ)` (rows of pixel intensities); Python/numpy float
  arithmetic is modelled over `ℚ` (exact), real-valued aggregates that need a
  square root (`np.std`, `np.sqrt`, `np.arctan2`) live in `ℝ`.
* External third-party collaborators (easyocr's `readtext`, cv2's `Canny` and
  `HoughLinesP`, scipy's Butterworth `filtfilt`) are opaque parameters bundled
  in `ExternalOps`; the spec treats them as black boxes.
* scipy's `find_peaks` local-maxima selection (strict rise, plateau midpoint,
  strict fall, endpoints excluded, `height` filter by `≥`) is embedded
  faithfully, since the edge-detector claims depend on its semantics.
* Fallible spots of the Python code (list indexing, `int(...)` parsing,
  integer division by zero) return `Option`; numpy operations that silently
  yield NaN (`0/0` in min-max normalisation, `np.mean`/`np.std` of an empty
  array) are modelled as `none`, which is a returned value, not an exception.
-/

namespace ImageProcessing

/-- External collaborators of the pipeline, opaque per the spec: the OCR
reader, cv2 edge/line detection, and the scipy zero-phase Butterworth filter
(`filtfilt order cutoff data`). -/
structure ExternalOps where
  readtext : List (List ℚ) → List String
  canny : List (List ℚ) → List (List ℚ)
  houghLinesP : List (List ℚ) → List (List (List ℤ))
  filtfilt : ℕ → ℚ → List ℚ → List ℚ

/-- Clamp a Python slice index into `[0, n]`: negative indices count from the
end, positive ones are truncated at `n`. -/
def pyIndex (n : ℕ) (i : ℤ) : ℕ :=
  if i < 0 then (i + n).toNat else min i.toNat n

/-- Python/numpy basic slicing `l[s:e]` with step 1. -/
def pySlice {α : Type} (l : List α) (s e : ℤ) : List α :=
  (l.take (pyIndex l.length e)).drop (pyIndex l.length s)

/-- Two-dimensional numpy slice `img[r1:r2, c1:c2]`. -/
def slice2 (img : List (List ℚ)) (r1 r2 c1 c2 : ℤ) : List (List ℚ) :=
  (pySlice img r1 r2).map fun row => pySlice row c1 c2

/-- Python `min(array)`; `min` of an empty array raises in Python, the `0`
returned here is never relied upon (callers guard emptiness). -/
def listMin : List ℚ → ℚ
  | [] => 0
  | x :: xs => xs.foldl (fun a b => min a b) x

/-- Python `max(array)`. -/
def listMax : List ℚ → ℚ
  | [] => 0
  | x :: xs => xs.foldl (fun a b => max a b) x

/-- `get_str_from_img`: delegate to the OCR collaborator (easyocr `readtext`
with `detail = 0`, which returns the list of recognised strings). -/
def get_str_from_img (E : ExternalOps) (image : List (List ℚ)) : List String :=
  E.readtext image

/-- Crop `image[0:125, 200:1250]`, the scale-bar sub-region used by
`get_scale_bar_size`. -/
def scaleBarRegion (image : List (List ℚ)) : List (List ℚ) :=
  slice2 image 0 125 200 1250

/-- `get_scale_bar_size`: run Canny + HoughLinesP on the scale-bar region and
return the first line's endpoint span `lines[0][0][2] - lines[0][0][0]` minus
the fixed 6-pixel end-tick correction.  Indexing into the detector's output is
fallible (`None` / empty output raises in Python), hence `Option`. -/
def get_scale_bar_size (E : ExternalOps) (image : List (List ℚ)) : Option ℤ := do
  let scale_img := scaleBarRegion image
  let lines := E.houghLinesP (E.canny scale_img)
  let l0 ← lines[0]?
  let seg ← l0[0]?
  let x2 ← seg[2]?
  let x1 ← seg[0]?
  pure (x2 - x1 - 6)

/-- Decimal digit accumulator: fails on the first non-digit character. -/
def digitsCore : List Char → ℕ → Option ℕ
  | [], acc => some acc
  | c :: cs, acc =>
    if c.isDigit then digitsCore cs (acc * 10 + (c.toNat - 48)) else none

/-- A non-empty run of decimal digits. -/
def parseDigits : List Char → Option ℕ
  | [] => none
  | cs => digitsCore cs 0

/-- Python `int(str)` integer parsing: an optional sign followed by decimal
digits; raises `ValueError` (`none`) on any other text. -/
def pyint (s : String) : Option ℤ :=
  match s.toList with
  | '-' :: cs => (parseDigits cs).map fun n => -(n : ℤ)
  | '+' :: cs => (parseDigits cs).map fun n => (n : ℤ)
  | cs => (parseDigits cs).map fun n => (n : ℤ)

/-- Python division: `ZeroDivisionError` on a zero denominator. -/
def pydiv (a b : ℚ) : Option ℚ :=
  if b = 0 then none else some (a / b)

/-- The bottom info bar `image[image.shape[0]-95 : image.shape[0], 0:image.shape[1]]`. -/
def infobarOf (image : List (List ℚ)) : List (List ℚ) :=
  slice2 image ((image.length : ℤ) - 95) (image.length : ℤ) 0 ((image.headD []).length : ℤ)

/-- The OCR text sub-region `infobar[0:infobar.shape[0], 0:95]`. -/
def scaleTextRegion (infobar : List (List ℚ)) : List (List ℚ) :=
  slice2 infobar 0 (infobar.length : ℤ) 0 95

/-- The three possible shapes of `get_scale`'s Python return value. -/
inductive ScaleResult where
  | all (scale_str : String) (scale_int : ℤ) (scale : ℚ)
  | pm (scale : ℚ) (uncertainty : ℚ)
  | scaleOnly (scale : ℚ)

/-- `get_scale`: OCR the label from the info bar, parse it as an integer,
measure the scale bar, and form `scale = scale_int / bar` and
`pm = scale_int / (bar - 1) - scale` (the bar size is re-measured for `pm`,
exactly as in the source). -/
def get_scale (E : ExternalOps) (image : List (List ℚ))
    (return_all return_pm : Bool) : Option ScaleResult := do
  let infobar := infobarOf image
  let scale_str ← (get_str_from_img E (scaleTextRegion infobar))[0]?
  let scale_int ← pyint scale_str
  let bar1 ← get_scale_bar_size E infobar
  let scale ← pydiv (scale_int : ℚ) ((bar1 : ℚ))
  let bar2 ← get_scale_bar_size E infobar
  let pmQuot ← pydiv (scale_int : ℚ) ((bar2 : ℚ) - 1)
  let pm := pmQuot - scale
  if return_all then pure (ScaleResult.all scale_str scale_int scale)
  else if return_pm then pure (ScaleResult.pm scale pm)
  else pure (ScaleResult.scaleOnly scale)

/-- `crop_image`: the source unpacks `width, height = image.shape`, so `width`
is bound to the row count and `height` to the column count, and then returns
`image[top_margin : height - bottom_margin, left_margin : width - right_margin]`. -/
def crop_image (image : List (List ℚ))
    (top_margin bottom_margin left_margin right_margin : ℤ) : List (List ℚ) :=
  let width : ℤ := image.length
  let height : ℤ := (image.headD []).length
  (pySlice image top_margin (height - bottom_margin)).map fun row =>
    pySlice row left_margin (width - right_margin)

/-- `normalize_1D_array`: min-max normalisation `(a - min) / (max - min)`.
When the array is constant numpy evaluates `0/0`, emits a warning and returns
an all-NaN array without raising; that NaN-poisoned value (and Python's
`ValueError` for an empty array) is modelled as `none`. -/
def normalize_1D_array (array : List ℚ) : Option (List ℚ) :=
  if listMax array - listMin array = 0 then none
  else some (array.map fun x => (x - listMin array) / (listMax array - listMin array))

/-- `get_intensity_profile`: normalise row `row` of the image and optionally
invert it (`1 - normalized`).  An out-of-range row (Python `IndexError`) is
also `none`. -/
def get_intensity_profile (image : List (List ℚ)) (row : ℕ)
    (invert_profile : Bool) : Option (List ℚ) :=
  match image[row]? with
  | none => none
  | some r =>
    match normalize_1D_array r with
    | none => none
    | some norm =>
      if invert_profile then some (norm.map fun v => 1 - v) else some norm

/-- numpy `np.diff`: first forward difference. -/
def npDiff (l : List ℚ) : List ℚ :=
  List.zipWith (fun a b => b - a) l l.tail

/-- `get_intensity_profile_dy`: `np.diff(intensity_profile * scale_factor)`. -/
def get_intensity_profile_dy (intensity_profile : List ℚ) (scale_factor : ℚ) : List ℚ :=
  npDiff (intensity_profile.map fun v => v * scale_factor)

/-- Elementwise mean of `np.mean` over an object array of equal-length rows
(numpy sums the rows elementwise and divides by their number). -/
def elementwiseMean (ls : List (List ℚ)) : List ℚ :=
  match ls with
  | [] => []
  | l0 :: _ => (List.range l0.length).map fun j =>
      (ls.map fun l => l.getD j 0).sum / (ls.length : ℚ)

/-- `get_mean_intensity_profile`: mean of the (inverted) row profiles over
`range(starting_row, ending_row)`.  An empty range makes `np.mean` yield NaN
(`none`); a NaN-poisoned row profile poisons the mean. -/
def get_mean_intensity_profile (image : List (List ℚ))
    (starting_row ending_row : ℕ) : Option (List ℚ) :=
  if ending_row - starting_row = 0 then none
  else
    ((List.range' starting_row (ending_row - starting_row)).mapM fun row =>
      get_intensity_profile image row true).map elementwiseMean

/-- `filter_data`: the scipy Butterworth + `filtfilt` zero-phase filter,
delegated to the external collaborator. -/
def filter_data (E : ExternalOps) (data : List ℚ)
    (filter_order : ℕ) (cutoff_freq : ℚ) : List ℚ :=
  E.filtfilt filter_order cutoff_freq data

/-- Length of the equal-value plateau starting at the current position, under
scipy's loop guard: advance while the current value equals `v` AND at least
one further element follows (`i_ahead < i_max`). -/
def plateauLen (v : ℚ) : List ℚ → ℕ
  | a :: b :: rest => if a = v then plateauLen v (b :: rest) + 1 else 0
  | _ => 0

/-- scipy `_local_maxima_1d`: indices `i` in `[1, n-2]` where the signal
strictly rises into `i`, stays flat on a plateau, and strictly falls after it;
the recorded position is the plateau midpoint `(left + right) // 2`. -/
def localMaxima (x : List ℚ) : List ℕ :=
  (List.range x.length).filterMap fun i =>
    if 1 ≤ i ∧ i + 1 < x.length ∧ x.getD (i - 1) 0 < x.getD i 0 then
      let v := x.getD i 0
      let ia := i + 1 + plateauLen v (x.drop (i + 1))
      if x.getD ia 0 < v then some ((i + ia - 1) / 2) else none
    else none

/-- scipy `find_peaks(x, height=h)`: local maxima whose value is `≥ h`. -/
def find_peaks (x : List ℚ) (height : ℚ) : List ℕ :=
  (localMaxima x).filter fun p => decide (height ≤ x.getD p 0)

/-- `get_leading_edge_positions`: peaks of the derivative above the treshold. -/
def get_leading_edge_positions (intensity_profile_derivative : List ℚ)
    (treshold : ℚ) : List ℕ :=
  find_peaks intensity_profile_derivative treshold

/-- `get_trailing_edge_positions`: peaks of the negated derivative above the
treshold. -/
def get_trailing_edge_positions (intensity_profile_derivative : List ℚ)
    (treshold : ℚ) : List ℕ :=
  find_peaks (intensity_profile_derivative.map fun v => -v) treshold

/-- numpy `np.mean` over a float list; NaN (`none`) when empty. -/
noncomputable def npMeanR (l : List ℝ) : Option ℝ :=
  if l.isEmpty then none else some (l.sum / (l.length : ℝ))

/-- numpy `np.std` (population): `sqrt(mean((x - mean)^2))`; NaN (`none`) when
empty. -/
noncomputable def npStdR (l : List ℝ) : Option ℝ :=
  if l.isEmpty then none
  else some (Real.sqrt ((l.map fun x => (x - l.sum / (l.length : ℝ)) ^ 2).sum / (l.length : ℝ)))

/-- `np.std` of a list of rationals (the Python floats are exact here). -/
noncomputable def npStd (l : List ℚ) : Option ℝ :=
  npStdR (l.map fun q => (q : ℝ))

/-- `np.std` over values that may already be NaN: NaN contagion. -/
noncomputable def npStdRO (l : List (Option ℝ)) : Option ℝ :=
  (l.mapM id).bind npStdR

/-- The translation list comprehension of `get_translation`:
`[(((le[(i+1)*2] - te[i*2+1]) - (le[i*2+1] - te[i*2])) * scale)/2 for i in range(n)]`
with `n = int(len(le)/2) - 1`; list indexing is fallible (`IndexError`). -/
def translationT (le te : List ℕ) (scale : ℚ) : Option (List ℚ) :=
  (List.range (le.length / 2 - 1)).mapM fun i => do
    let a : ℕ ← le[(i + 1) * 2]?
    let b : ℕ ← te[i * 2 + 1]?
    let c : ℕ ← le[i * 2 + 1]?
    let d : ℕ ← te[i * 2]?
    pure ((((a : ℚ) - (b : ℚ)) - ((c : ℚ) - (d : ℚ))) * scale / 2)

/-- `get_translation`: filter the derivative of the profile, detect leading and
trailing edges at the default treshold `0.1`, form the translation list and its
`np.std`. -/
noncomputable def get_translation (E : ExternalOps) (intensity_profile : List ℚ)
    (scale : ℚ) : Option (List ℚ × Option ℝ) :=
  let dy := filter_data E (get_intensity_profile_dy intensity_profile 5) 3 (1/10)
  let le := get_leading_edge_positions dy (1/10)
  let te := get_trailing_edge_positions dy (1/10)
  (translationT le te scale).map fun T => (T, npStd T)

/-- numpy `np.rad2deg`. -/
noncomputable def rad2deg (x : ℝ) : ℝ :=
  x * 180 / Real.pi

/-- numpy `np.arctan2 y x`: the argument of the complex number `x + y*I`. -/
noncomputable def arctan2 (y x : ℝ) : ℝ :=
  Complex.arg ⟨x, y⟩

/-- `get_rotation`: translations at `get_mean_intensity_profile(image, 10, 11)`
and `get_mean_intensity_profile(image, y-1, y)`, then for each index common to
both `angle_i = abs(rad2deg(arctan2(top_i - bottom_i, y * scale))) / 2`, and
the mean and std of those angles. -/
noncomputable def get_rotation (E : ExternalOps) (image : List (List ℚ))
    (scale : ℚ) : Option (Option ℝ × Option ℝ) :=
  let y := image.length
  match get_mean_intensity_profile image 10 11,
        get_mean_intensity_profile image (y - 1) y with
  | some ptop, some pbot =>
    match get_translation E ptop scale, get_translation E pbot scale with
    | some Ttop, some Tbot =>
      let angles : List ℝ :=
        (List.range (min Tbot.1.length Ttop.1.length)).map fun i =>
          |rad2deg (arctan2 ((Ttop.1.getD i 0 : ℝ) - (Tbot.1.getD i 0 : ℝ))
            ((y : ℝ) * (scale : ℝ)))| / 2
      some (npMeanR angles, npStdR angles)
    | _, _ => none
  | _, _ => none

/-- Variant of `get_rotation` following the claim's wording instead of the
source: the top band is the mean profile of rows 10 AND 11 (`range(10, 12)`)
and the bottom band is the mean profile of the LAST TWO rows
(`range(y-2, y)`); everything else is unchanged.  Used only to compare the
claimed behaviour against the source's. -/
noncomputable def get_rotation_claimed (E : ExternalOps) (image : List (List ℚ))
    (scale : ℚ) : Option (Option ℝ × Option ℝ) :=
  let y := image.length
  match get_mean_intensity_profile image 10 12,
        get_mean_intensity_profile image (y - 2) y with
  | some ptop, some pbot =>
    match get_translation E ptop scale, get_translation E pbot scale with
    | some Ttop, some Tbot =>
      let angles : List ℝ :=
        (List.range (min Tbot.1.length Ttop.1.length)).map fun i =>
          |rad2deg (arctan2 ((Ttop.1.getD i 0 : ℝ) - (Tbot.1.getD i 0 : ℝ))
            ((y : ℝ) * (scale : ℝ)))| / 2
      some (npMeanR angles, npStdR angles)
    | _, _ => none
  | _, _ => none

/-- `get_line_width_data`: zip the leading and trailing edges index-wise; the
width of the pair `(peak, valley)` is `(valley - peak) * scale`, and its
uncertainty is the `np.std` over the rows of the padded window of
`sqrt(sum(max(data_slice - filter_data(profile(row), 1, 0.1)**2, 0))) * scale`
(note `**` binds tighter than `-` in the source). -/
noncomputable def get_line_width_data (E : ExternalOps) (image : List (List ℚ))
    (mean_intensity_profile : List ℚ) (leading_edges trailing_edges : List ℕ)
    (scale : ℚ) : List ℚ × List (Option ℝ) :=
  let margin : ℤ := 10
  let pairs := leading_edges.zip trailing_edges
  let line_widths := pairs.map fun pv => ((pv.2 : ℚ) - (pv.1 : ℚ)) * scale
  let line_stds := pairs.map fun pv =>
    let img_slice := image.map fun r =>
      pySlice r ((pv.1 : ℤ) - margin) ((pv.2 : ℤ) + margin)
    let data_slice :=
      pySlice mean_intensity_profile ((pv.1 : ℤ) - margin) ((pv.2 : ℤ) + margin)
    let LW_differences := (List.range img_slice.length).map fun row =>
      (get_intensity_profile img_slice row true).map fun prof =>
        let s : ℚ := (List.zipWith (fun d f => max (d - f ^ 2) 0) data_slice
          (filter_data E prof 1 (1/10))).sum
        Real.sqrt (s : ℝ) * (scale : ℝ)
    npStdRO LW_differences
  (line_widths, line_stds)

/-- `get_single_line_width`: project one line's width and std out of
`get_line_width_data` (fallible list indexing). -/
noncomputable def get_single_line_width (E : ExternalOps) (image : List (List ℚ))
    (mean_intensity_profile : List ℚ) (leading_edges trailing_edges : List ℕ)
    (scale : ℚ) (lineIdx : ℕ) : Option (ℚ × Option ℝ) := do
  let lwstd := get_line_width_data E image mean_intensity_profile
    leading_edges trailing_edges scale
  let lw ← lwstd.1[lineIdx]?
  let std ← lwstd.2[lineIdx]?
  pure (lw, std)

/-- A square-pulse image row: four dark lines on a bright background. -/
def rowP : List ℚ := [1, 1, 0, 0, 1, 1, 0, 0, 1, 1, 0, 0, 1, 1, 0, 0, 1, 1]

/-- The pointwise complement of `rowP`. -/
def rowQ : List ℚ := [0, 0, 1, 1, 0, 0, 1, 1, 0, 0, 1, 1, 0, 0, 1, 1, 0, 0]

/-- A 14-row test image: all rows are `rowP` except row 11, which is `rowQ`. -/
def img14 : List (List ℚ) :=
  [rowP, rowP, rowP, rowP, rowP, rowP, rowP, rowP, rowP, rowP, rowP, rowQ, rowP, rowP]

/-- An 11-row test image (rows 0-10, all `rowP`): row 10 is its last row, and
row 11 does not exist. -/
def img11 : List (List ℚ) :=
  [rowP, rowP, rowP, rowP, rowP, rowP, rowP, rowP, rowP, rowP, rowP]

/-- A profile whose derivative carries exactly 8 leading and 8 trailing edges. -/
def profile8 : List ℚ :=
  [0, 0, 1, 1, 0, 0, 1, 1, 0, 0, 1, 1, 0, 0, 1, 1,
   0, 0, 1, 1, 0, 0, 1, 1, 0, 0, 1, 1, 0, 0, 1, 1, 0, 0]

/-- Collaborator instance whose filter is the identity, used for concrete
evaluations. -/
def idOps : ExternalOps :=
  ⟨fun _ => [], id, fun _ => [], fun _ _ d => d⟩

/-- Collaborator instance for the scale-calibration evaluation: the OCR reads
"100" and the line detector reports one segment spanning 56 pixels. -/
def ocrOps : ExternalOps :=
  ⟨fun _ => ["100"], id, fun _ => [[[0, 0, 56, 0]]], fun _ _ d => d⟩

/-! ## Theorems -/

section Theorems

attribute [local semireducible] Rat.mul Rat.inv Rat.add Rat.sub Rat.ofScientific

/-- A `mapM` over `Option` that succeeds on every element returns the map. -/
theorem mapM_option_of_mem {α β : Type} (f : α → Option β) (g : α → β) :
    ∀ (l : List α), (∀ a ∈ l, f a = some (g a)) → l.mapM f = some (l.map g) := by
  intro l
  induction l with
  | nil => intro h; rfl
  | cons x xs ih =>
    intro h
    simp only [List.mapM_cons, h x (by simp), ih (fun a ha => h a (by simp [ha])),
      List.map_cons]
    rfl

/-- When the trailing-edge list is long enough, the translation comprehension
succeeds and its entries follow the even/odd index formula. -/
theorem translationT_eq (le te : List ℕ) (scale : ℚ)
    (hb : 2 * (le.length / 2 - 1) ≤ te.length) :
    translationT le te scale =
      some ((List.range (le.length / 2 - 1)).map fun i =>
        (((le.getD ((i + 1) * 2) 0 : ℚ) - (te.getD (i * 2 + 1) 0 : ℚ)) -
          ((le.getD (i * 2 + 1) 0 : ℚ) - (te.getD (i * 2) 0 : ℚ))) * scale / 2) := by
  unfold translationT
  apply mapM_option_of_mem
  intro i hi
  rw [List.mem_range] at hi
  have h1 : (i + 1) * 2 < le.length := by omega
  have h2 : i * 2 + 1 < te.length := by omega
  have h3 : i * 2 + 1 < le.length := by omega
  have h4 : i * 2 < te.length := by omega
  have e1 : le[(i + 1) * 2]? = some (le.getD ((i + 1) * 2) 0) := by
    rw [List.getElem?_eq_getElem h1, List.getD_eq_getElem _ _ h1]
  have e2 : te[i * 2 + 1]? = some (te.getD (i * 2 + 1) 0) := by
    rw [List.getElem?_eq_getElem h2, List.getD_eq_getElem _ _ h2]
  have e3 : le[i * 2 + 1]? = some (le.getD (i * 2 + 1) 0) := by
    rw [List.getElem?_eq_getElem h3, List.getD_eq_getElem _ _ h3]
  have e4 : te[i * 2]? = some (te.getD (i * 2) 0) := by
    rw [List.getElem?_eq_getElem h4, List.getD_eq_getElem _ _ h4]
  simp only [Option.bind_eq_bind, Option.pure_def, e1, e2, e3, e4, Option.some_bind]

/-- Raising the `find_peaks` height filter cannot produce more peaks. -/
theorem find_peaks_mono (x : List ℚ) (t1 t2 : ℚ) (h : t1 ≤ t2) :
    (find_peaks x t2).length ≤ (find_peaks x t1).length := by
  apply List.Sublist.length_le
  apply List.monotone_filter_right
  intro a ha
  simp only [decide_eq_true_eq] at ha ⊢
  exact le_trans h ha

/-- C9: for every derivative profile and thresholds `t1 ≤ t2`, the number of
leading (resp. trailing) edges returned at threshold `t2` is at most the
number returned at `t1`. -/
theorem edge_threshold_monotone (d : List ℚ) (t1 t2 : ℚ) (h : t1 ≤ t2) :
    (get_leading_edge_positions d t2).length ≤ (get_leading_edge_positions d t1).length ∧
    (get_trailing_edge_positions d t2).length ≤ (get_trailing_edge_positions d t1).length :=
  ⟨find_peaks_mono _ _ _ h, find_peaks_mono _ _ _ h⟩

/-- Witness for C9 at the derivative `[0, 1, 0]` and thresholds `1/10 ≤ 2`. -/
theorem edge_threshold_monotone_witness :
    ((1 : ℚ)/10 ≤ 2) ∧
    ((get_leading_edge_positions [0, 1, 0] 2).length ≤
        (get_leading_edge_positions [0, 1, 0] (1/10)).length ∧
      (get_trailing_edge_positions [0, 1, 0] 2).length ≤
        (get_trailing_edge_positions [0, 1, 0] (1/10)).length) :=
  ⟨by norm_num, edge_threshold_monotone [0, 1, 0] (1/10) 2 (by norm_num)⟩

/-- C2 (evidence of the code bug): on mismatched edge lists (2 leading, 1
trailing) `get_line_width_data` silently zips down to the shorter list and
returns one width; no `EdgeCountMismatchError` (or any error) occurs. -/
theorem line_width_mismatch_silent_zip :
    (([1, 5] : List ℕ).length ≠ ([3] : List ℕ).length) ∧
    (get_line_width_data idOps [[0, 1]] [0, 1] [1, 5] [3] 2).1 = [4] :=
  ⟨by decide, by decide⟩

/-- C3: with equally long edge lists, `get_line_width_data` pairs the i-th
leading with the i-th trailing edge and the i-th width is
`(trailing[i] - leading[i]) * scale`. -/
theorem line_width_pairing (E : ExternalOps) (image : List (List ℚ)) (mp : List ℚ)
    (le te : List ℕ) (scale : ℚ) (h : le.length = te.length) :
    (get_line_width_data E image mp le te scale).1.length = le.length ∧
    ∀ i, i < le.length →
      (get_line_width_data E image mp le te scale).1.getD i 0 =
        ((te.getD i 0 : ℚ) - (le.getD i 0 : ℚ)) * scale := by
  have hfst : (get_line_width_data E image mp le te scale).1 =
      (le.zip te).map fun pv => ((pv.2 : ℚ) - (pv.1 : ℚ)) * scale := rfl
  constructor
  · rw [hfst]
    simp [List.length_zip, h]
  · intro i hi
    have hile : i < le.length := hi
    have hite : i < te.length := h ▸ hi
    have hiz : i < (le.zip te).length := by
      rw [List.length_zip]
      omega
    have hm : i < ((le.zip te).map fun pv => ((pv.2 : ℚ) - (pv.1 : ℚ)) * scale).length := by
      simpa using hiz
    rw [hfst, List.getD_eq_getElem _ _ hm, List.getElem_map, List.getElem_zip,
      List.getD_eq_getElem _ _ hile, List.getD_eq_getElem _ _ hite]

/-- Witness for C3: a single line with edges at 3 and 10 and scale 2 gives the
single width `(10 - 3) * 2`. -/
theorem line_width_pairing_witness :
    (([3] : List ℕ).length = ([10] : List ℕ).length) ∧
    ((get_line_width_data idOps [[0, 1]] [] [3] [10] 2).1.length = ([3] : List ℕ).length ∧
      ∀ i, i < ([3] : List ℕ).length →
        (get_line_width_data idOps [[0, 1]] [] [3] [10] 2).1.getD i 0 =
          ((([10] : List ℕ).getD i 0 : ℚ) - (([3] : List ℕ).getD i 0 : ℚ)) * 2) :=
  ⟨rfl, line_width_pairing idOps [[0, 1]] [] [3] [10] 2 rfl⟩

/-- C5 (evidence of the code bug): on the constant row `[5, 5, 5]` the
normalisation denominator `max - min` is zero; numpy evaluates `0/0` and
returns the NaN-poisoned profile (modelled `none`) without raising any
`DegenerateProfileError`. -/
theorem constant_row_nan :
    listMax [(5 : ℚ), 5, 5] - listMin [(5 : ℚ), 5, 5] = 0 ∧
    normalize_1D_array [(5 : ℚ), 5, 5] = none ∧
    get_intensity_profile [[(5 : ℚ), 5, 5]] 0 true = none :=
  ⟨by decide, by decide, by decide⟩

/-- C6 (evidence of the code bug): the profile `[0,0,1,1,0,0,1,1,0,0]` has only
2 leading edges (fewer than 4), yet `get_translation` returns normally with an
empty translation list and a NaN standard deviation (`np.std` of an empty
list, modelled `none`) instead of raising `InsufficientEdgesError`. -/
theorem insufficient_edges_silent_return :
    (get_leading_edge_positions
        (filter_data idOps (get_intensity_profile_dy [0, 0, 1, 1, 0, 0, 1, 1, 0, 0] 5) 3 (1/10))
        (1/10)).length < 4 ∧
    get_translation idOps [0, 0, 1, 1, 0, 0, 1, 1, 0, 0] 1 = some ([], none) := by
  constructor
  · decide
  · have h1 : get_leading_edge_positions
        (filter_data idOps (get_intensity_profile_dy [0, 0, 1, 1, 0, 0, 1, 1, 0, 0] 5) 3 (1/10))
        (1/10) = [1, 5] := by decide
    have h2 : get_trailing_edge_positions
        (filter_data idOps (get_intensity_profile_dy [0, 0, 1, 1, 0, 0, 1, 1, 0, 0] 5) 3 (1/10))
        (1/10) = [3, 7] := by decide
    have h3 : translationT [1, 5] [3, 7] 1 = some [] := by decide
    simp only [get_translation, h1, h2, h3, Option.map_some]
    simp [npStd, npStdR]


/-- C4: `get_translation` detects edges on the smoothed derivative and, when
the trailing-edge list is long enough for the indices used, returns exactly
`len(le)/2 - 1` translation values following the even/odd index formula,
together with their standard deviation. -/
theorem translation_count_formula (E : ExternalOps) (profile : List ℚ) (scale : ℚ)
    (le te : List ℕ)
    (hle : get_leading_edge_positions
        (filter_data E (get_intensity_profile_dy profile 5) 3 (1/10)) (1/10) = le)
    (hte : get_trailing_edge_positions
        (filter_data E (get_intensity_profile_dy profile 5) 3 (1/10)) (1/10) = te)
    (hb : 2 * (le.length / 2 - 1) ≤ te.length) :
    get_translation E profile scale =
      some ((List.range (le.length / 2 - 1)).map fun i =>
          (((le.getD ((i + 1) * 2) 0 : ℚ) - (te.getD (i * 2 + 1) 0 : ℚ)) -
            ((le.getD (i * 2 + 1) 0 : ℚ) - (te.getD (i * 2) 0 : ℚ))) * scale / 2,
        npStd ((List.range (le.length / 2 - 1)).map fun i =>
          (((le.getD ((i + 1) * 2) 0 : ℚ) - (te.getD (i * 2 + 1) 0 : ℚ)) -
            ((le.getD (i * 2 + 1) 0 : ℚ) - (te.getD (i * 2) 0 : ℚ))) * scale / 2)) := by
  simp only [get_translation, hle, hte, translationT_eq le te scale hb, Option.map_some']

/-- Witness for C4: on a profile with exactly 8 leading and 8 trailing edges
the returned translation list has exactly `8/2 - 1 = 3` entries. -/
theorem translation_count_formula_witness :
    (2 * (([1, 5, 9, 13, 17, 21, 25, 29] : List ℕ).length / 2 - 1) ≤
        ([3, 7, 11, 15, 19, 23, 27, 31] : List ℕ).length) ∧
    ∃ T s, get_translation idOps profile8 1 = some (T, s) ∧ T.length = 3 :=
  ⟨by decide,
    ⟨_, _, translation_count_formula idOps profile8 1
      [1, 5, 9, 13, 17, 21, 25, 29] [3, 7, 11, 15, 19, 23, 27, 31]
      (by decide) (by decide) (by decide), by decide⟩⟩

/-- Auxiliary: `zipWith` over two maps of the same list is a map. -/
theorem zipWith_map_same {α β : Type} (g : β → β → β) (f1 f2 : α → β) :
    ∀ (l : List α),
      List.zipWith g (l.map f1) (l.map f2) = l.map fun x => g (f1 x) (f2 x) := by
  intro l
  induction l with
  | nil => rfl
  | cons x xs ih => simp [ih]

/-- C8: on a non-constant row the inverted and non-inverted profiles both
exist and are pointwise complements: their elementwise sum is 1 everywhere. -/
theorem invert_complement (image : List (List ℚ)) (row : ℕ) (r : List ℚ)
    (hr : image[row]? = some r) (hnc : listMax r - listMin r ≠ 0) :
    ∃ p q, get_intensity_profile image row true = some p ∧
      get_intensity_profile image row false = some q ∧
      List.zipWith (fun a b => a + b) p q = List.replicate r.length 1 := by
  refine ⟨(r.map fun x => (x - listMin r) / (listMax r - listMin r)).map (fun v => 1 - v),
    r.map fun x => (x - listMin r) / (listMax r - listMin r), ?_, ?_, ?_⟩
  · simp [get_intensity_profile, hr, normalize_1D_array, hnc]
  · simp [get_intensity_profile, hr, normalize_1D_array, hnc]
  · rw [List.map_map]
    rw [zipWith_map_same (fun a b => a + b)
      ((fun v => 1 - v) ∘ fun x => (x - listMin r) / (listMax r - listMin r))
      (fun x => (x - listMin r) / (listMax r - listMin r)) r]
    have hfun : (fun x => ((fun v => (1 : ℚ) - v) ∘
          fun x => (x - listMin r) / (listMax r - listMin r)) x +
          (x - listMin r) / (listMax r - listMin r)) = fun _ => (1 : ℚ) := by
      funext x
      simp [Function.comp]
    rw [hfun, List.map_const']

/-- Witness for C8 on the row `[0, 2]`. -/
theorem invert_complement_witness :
    (([[(0 : ℚ), 2]] : List (List ℚ))[0]? = some [0, 2]) ∧
    (listMax [(0 : ℚ), 2] - listMin [(0 : ℚ), 2] ≠ 0) ∧
    ∃ p q, get_intensity_profile [[(0 : ℚ), 2]] 0 true = some p ∧
      get_intensity_profile [[(0 : ℚ), 2]] 0 false = some q ∧
      List.zipWith (fun a b => a + b) p q = List.replicate ([(0 : ℚ), 2] : List ℚ).length 1 :=
  ⟨rfl, by decide, invert_complement [[(0 : ℚ), 2]] 0 [0, 2] rfl (by decide)⟩


/-- C1: when the OCR collaborator's first string parses to `labelValue` and the
line-detection collaborator's first segment spans `S = x2 - x1` pixels,
`get_scale` with `return_pm` returns `scale = labelValue / L` and
`uncertainty = labelValue / (L - 1) - scale` with `L = S - 6` (the 6-pixel
end-tick correction); `L ∉ {0, 1}` keeps both Python divisions defined. -/
theorem get_scale_pm_formula (E : ExternalOps) (image : List (List ℚ))
    (s : String) (labelValue : ℤ) (l0 : List (List ℤ)) (seg : List ℤ) (x1 x2 S : ℤ)
    (hocr : (get_str_from_img E (scaleTextRegion (infobarOf image)))[0]? = some s)
    (hparse : pyint s = some labelValue)
    (hl0 : (E.houghLinesP (E.canny (scaleBarRegion (infobarOf image))))[0]? = some l0)
    (hseg : l0[0]? = some seg)
    (hx2 : seg[2]? = some x2)
    (hx1 : seg[0]? = some x1)
    (hS : x2 - x1 = S)
    (hL0 : S - 6 ≠ 0) (hL1 : S - 6 ≠ 1) :
    get_scale E image false true =
      some (ScaleResult.pm ((labelValue : ℚ) / ((S : ℚ) - 6))
        ((labelValue : ℚ) / ((S : ℚ) - 6 - 1) - (labelValue : ℚ) / ((S : ℚ) - 6))) := by
  have hbar : get_scale_bar_size E (infobarOf image) = some (S - 6) := by
    simp only [get_scale_bar_size, Option.bind_eq_bind, Option.pure_def, hl0, hseg, hx2, hx1,
      Option.some_bind]
    rw [hS]
  have hcast0 : ((S - 6 : ℤ) : ℚ) ≠ 0 := by exact_mod_cast hL0
  have hcast1 : ((S - 6 : ℤ) : ℚ) - 1 ≠ 0 := by
    intro h
    apply hL1
    have h2 : ((S - 6 : ℤ) : ℚ) = ((1 : ℤ) : ℚ) := by push_cast at h ⊢; linarith
    exact_mod_cast h2
  have hd1 : pydiv (labelValue : ℚ) ((S - 6 : ℤ) : ℚ) =
      some ((labelValue : ℚ) / ((S : ℚ) - 6)) := by
    rw [pydiv, if_neg hcast0]
    push_cast
    rfl
  have hd2 : pydiv (labelValue : ℚ) (((S - 6 : ℤ) : ℚ) - 1) =
      some ((labelValue : ℚ) / ((S : ℚ) - 6 - 1)) := by
    rw [pydiv, if_neg hcast1]
    push_cast
    rfl
  simp only [get_scale, Option.bind_eq_bind, Option.pure_def, hocr, hparse, hbar, hd1, hd2,
    Option.some_bind, Bool.false_eq_true, if_false, if_true]

/-- Witness for C1: OCR label "100" and a 56-pixel segment give
`scale = 100/50` and `uncertainty = 100/49 - 100/50`. -/
theorem get_scale_pm_formula_witness :
    pyint "100" = some 100 ∧
    get_scale ocrOps [[0]] false true =
      some (ScaleResult.pm ((100 : ℚ) / ((56 : ℚ) - 6))
        ((100 : ℚ) / ((56 : ℚ) - 6 - 1) - (100 : ℚ) / ((56 : ℚ) - 6))) :=
  ⟨by decide, get_scale_pm_formula ocrOps [[0]] "100" 100 [[0, 0, 56, 0]] [0, 0, 56, 0]
    0 56 56 rfl (by decide) rfl rfl rfl rfl rfl (by decide) (by decide)⟩


/-- A Python slice index that is a natural number clamps to `min a n`. -/
theorem pyIndex_ofNat (n a : ℕ) : pyIndex n (a : ℤ) = min a n := by
  unfold pyIndex
  rw [if_neg (by omega : ¬ (a : ℤ) < 0)]
  simp

/-- A Python slice with natural-number bounds is a take-then-drop. -/
theorem pySlice_ofNat {α : Type} (l : List α) (a b : ℕ) :
    pySlice l (a : ℤ) (b : ℤ) = (l.take (min b l.length)).drop a := by
  unfold pySlice
  rw [pyIndex_ofNat, pyIndex_ofNat]
  rcases le_or_lt a l.length with h | h
  · rw [min_eq_left h]
  · rw [min_eq_right (le_of_lt h)]
    have h1 : (l.take (min b l.length)).length ≤ l.length := by
      simp [List.length_take]
    rw [List.drop_eq_nil_of_le h1, List.drop_eq_nil_of_le (le_trans h1 (le_of_lt h))]

/-- Length of a Python slice with natural-number bounds. -/
theorem pySlice_length_ofNat {α : Type} (l : List α) (a b : ℕ) :
    (pySlice l (a : ℤ) (b : ℤ)).length = min b l.length - a := by
  rw [pySlice_ofNat]
  simp [List.length_take, List.length_drop]

/-- Entries of a Python slice with natural-number bounds. -/
theorem pySlice_getD_ofNat {α : Type} (l : List α) (a b i : ℕ) (d : α)
    (hi : i < (pySlice l (a : ℤ) (b : ℤ)).length) :
    (pySlice l (a : ℤ) (b : ℤ)).getD i d = l.getD (a + i) d := by
  have hlen : i < min b l.length - a := by rw [pySlice_length_ofNat] at hi; exact hi
  rw [pySlice_ofNat, List.getD_eq_getElem?_getD, List.getD_eq_getElem?_getD,
    List.getElem?_drop, List.getElem?_take, if_pos (by omega)]

/-- C10: `crop_image` on an `R × C` rectangular image slices rows by
`[top : C - bottom]` (the bound comes from the column count) and columns by
`[left : R - right]` (the bound comes from the row count), because the source
unpacks `image.shape` as `(width, height)`; consequently only on square images
(`R = C`) does it remove exactly the requested margins from each side. -/
theorem crop_swapped_bounds (image : List (List ℚ)) (t b l r R C : ℕ)
    (hR : image.length = R) (hC : (image.headD []).length = C)
    (hrect : ∀ row ∈ image, row.length = C) (hb : b ≤ C) (hr : r ≤ R) :
    (crop_image image t b l r).length = min (C - b) R - t ∧
    (∀ row ∈ crop_image image t b l r, row.length = min (R - r) C - l) ∧
    (∀ i, i < (crop_image image t b l r).length →
      (crop_image image t b l r).getD i [] =
        pySlice (image.getD (t + i) []) (l : ℤ) ((R : ℤ) - (r : ℤ))) ∧
    (R = C → t + b ≤ R → l + r ≤ R →
      (crop_image image t b l r).length = R - t - b ∧
      ∀ row ∈ crop_image image t b l r, row.length = C - l - r) := by
  have hbound1 : ((image.headD []).length : ℤ) - (b : ℤ) = ((C - b : ℕ) : ℤ) := by
    rw [hC]; omega
  have hbound2 : ((image.length : ℤ)) - (r : ℤ) = ((R - r : ℕ) : ℤ) := by
    rw [hR]; omega
  have hcrop : crop_image image (t : ℤ) (b : ℤ) (l : ℤ) (r : ℤ) =
      (pySlice image (t : ℤ) ((C - b : ℕ) : ℤ)).map fun row =>
        pySlice row (l : ℤ) ((R - r : ℕ) : ℤ) := by
    simp only [crop_image]
    rw [hbound1, hbound2]
  have hb2 : ((R - r : ℕ) : ℤ) = (R : ℤ) - (r : ℤ) := by omega
  have part1 : (crop_image image t b l r).length = min (C - b) R - t := by
    rw [hcrop, List.length_map, pySlice_length_ofNat, hR]
  have part2 : ∀ row ∈ crop_image image t b l r, row.length = min (R - r) C - l := by
    intro row hrow
    rw [hcrop, List.mem_map] at hrow
    obtain ⟨row0, hrow0, rfl⟩ := hrow
    rw [pySlice_ofNat] at hrow0
    have hmem : row0 ∈ image := List.mem_of_mem_take (List.mem_of_mem_drop hrow0)
    rw [pySlice_length_ofNat, hrect row0 hmem]
  have part3 : ∀ i, i < (crop_image image t b l r).length →
      (crop_image image t b l r).getD i [] =
        pySlice (image.getD (t + i) []) (l : ℤ) ((R : ℤ) - (r : ℤ)) := by
    intro i hi
    rw [hcrop] at hi ⊢
    have him : i < ((pySlice image (t : ℤ) ((C - b : ℕ) : ℤ)).map fun row =>
        pySlice row (l : ℤ) ((R - r : ℕ) : ℤ)).length := hi
    have hi2 : i < (pySlice image (t : ℤ) ((C - b : ℕ) : ℤ)).length := by
      simpa using hi
    rw [List.getD_eq_getElem _ _ him, List.getElem_map,
      ← List.getD_eq_getElem (pySlice image (t : ℤ) ((C - b : ℕ) : ℤ)) [] hi2,
      pySlice_getD_ofNat _ _ _ _ _ hi2, hb2]
  refine ⟨part1, part2, part3, fun hsq htb hlr => ⟨by rw [part1]; omega,
    fun row hrow => by rw [part2 row hrow]; omega⟩⟩

/-- Witness for C10 on the square image `[[1,2],[3,4]]` with margins
`top = 1`, `bottom = 0`, `left = 0`, `right = 1`. -/
theorem crop_swapped_bounds_witness :
    (∀ row ∈ ([[1, 2], [3, 4]] : List (List ℚ)), row.length = 2) ∧
    ((crop_image [[1, 2], [3, 4]] 1 0 0 1).length = min (2 - 0) 2 - 1 ∧
      (∀ row ∈ crop_image [[1, 2], [3, 4]] 1 0 0 1, row.length = min (2 - 1) 2 - 0) ∧
      (∀ i, i < (crop_image [[1, 2], [3, 4]] 1 0 0 1).length →
        (crop_image [[1, 2], [3, 4]] 1 0 0 1).getD i [] =
          pySlice (([[1, 2], [3, 4]] : List (List ℚ)).getD (1 + i) []) ((0 : ℕ) : ℤ)
            (((2 : ℕ) : ℤ) - ((1 : ℕ) : ℤ))) ∧
      ((2 : ℕ) = 2 → 1 + 0 ≤ 2 → 0 + 1 ≤ 2 →
        (crop_image [[1, 2], [3, 4]] 1 0 0 1).length = 2 - 1 - 0 ∧
        ∀ row ∈ crop_image [[1, 2], [3, 4]] 1 0 0 1, row.length = 2 - 0 - 1)) :=
  ⟨by decide, crop_swapped_bounds [[1, 2], [3, 4]] 1 0 0 1 2 2 rfl rfl
    (by decide) (by decide) (by decide)⟩


/-- `arctan2 0 x` vanishes for nonnegative `x`. -/
theorem arctan2_zero_nonneg (x : ℝ) (hx : 0 ≤ x) : arctan2 0 x = 0 := by
  unfold arctan2
  have hxc : (⟨x, 0⟩ : ℂ) = ((x : ℝ) : ℂ) := by
    apply Complex.ext <;> simp
  rw [hxc]
  exact Complex.arg_ofReal_of_nonneg hx

/-- Concrete evaluation: the profile `rowQ` yields edges `[1,5,9,13]` and
`[3,7,11,15]`, hence one translation value `0`. -/
theorem translation_rowQ_eval :
    get_translation idOps rowQ 1 = some ([0], npStd [0]) := by
  have h1 : get_leading_edge_positions
      (filter_data idOps (get_intensity_profile_dy rowQ 5) 3 (1/10)) (1/10) =
        [1, 5, 9, 13] := by decide
  have h2 : get_trailing_edge_positions
      (filter_data idOps (get_intensity_profile_dy rowQ 5) 3 (1/10)) (1/10) =
        [3, 7, 11, 15] := by decide
  have h3 : translationT [1, 5, 9, 13] [3, 7, 11, 15] 1 = some [0] := by decide
  simp only [get_translation, h1, h2, h3, Option.map_some']

/-- When both band profiles and both translation computations succeed,
`get_rotation` returns the mean and std of the halved absolute angles over the
min-matched translation indices. -/
theorem get_rotation_eq (E : ExternalOps) (image : List (List ℚ)) (scale : ℚ)
    (ptop pbot Ttop Tbot : List ℚ) (stdT stdB : Option ℝ)
    (htop : get_mean_intensity_profile image 10 11 = some ptop)
    (hbot : get_mean_intensity_profile image (image.length - 1) image.length = some pbot)
    (httop : get_translation E ptop scale = some (Ttop, stdT))
    (htbot : get_translation E pbot scale = some (Tbot, stdB)) :
    get_rotation E image scale =
      some (npMeanR ((List.range (min Tbot.length Ttop.length)).map fun i =>
          |rad2deg (arctan2 ((Ttop.getD i 0 : ℝ) - (Tbot.getD i 0 : ℝ))
            ((image.length : ℝ) * (scale : ℝ)))| / 2),
        npStdR ((List.range (min Tbot.length Ttop.length)).map fun i =>
          |rad2deg (arctan2 ((Ttop.getD i 0 : ℝ) - (Tbot.getD i 0 : ℝ))
            ((image.length : ℝ) * (scale : ℝ)))| / 2)) := by
  simp only [get_rotation, htop, hbot, httop, htbot]

/-- C7 (as amended): `get_rotation` computes translations on the mean profile
of row 10 alone (`range(10, 11)`) and of the last row alone
(`range(y-1, y)`) — not two-row bands — and for each of the
`min(top count, bottom count)` matched indices forms
`|atan2(top_i - bottom_i, image_height * scale)|` halved, in degrees,
returning the mean and standard deviation of these angles. -/
theorem rotation_single_row_bands (E : ExternalOps) (image : List (List ℚ)) (scale : ℚ)
    (ptop pbot Ttop Tbot : List ℚ) (stdT stdB : Option ℝ)
    (htop : get_mean_intensity_profile image 10 11 = some ptop)
    (hbot : get_mean_intensity_profile image (image.length - 1) image.length = some pbot)
    (httop : get_translation E ptop scale = some (Ttop, stdT))
    (htbot : get_translation E pbot scale = some (Tbot, stdB)) :
    get_rotation E image scale =
      some (npMeanR ((List.range (min Tbot.length Ttop.length)).map fun i =>
          |rad2deg (arctan2 ((Ttop.getD i 0 : ℝ) - (Tbot.getD i 0 : ℝ))
            ((image.length : ℝ) * (scale : ℝ)))| / 2),
        npStdR ((List.range (min Tbot.length Ttop.length)).map fun i =>
          |rad2deg (arctan2 ((Ttop.getD i 0 : ℝ) - (Tbot.getD i 0 : ℝ))
            ((image.length : ℝ) * (scale : ℝ)))| / 2)) :=
  get_rotation_eq E image scale ptop pbot Ttop Tbot stdT stdB htop hbot httop htbot

set_option maxRecDepth 100000 in
/-- Concrete evaluation: the source's top band of `img14` is row 10 alone. -/
theorem mean_profile_img14_top : get_mean_intensity_profile img14 10 11 = some rowQ := by
  decide

set_option maxRecDepth 100000 in
/-- Concrete evaluation: the source's bottom band of `img14` is row 13 alone. -/
theorem mean_profile_img14_bottom :
    get_mean_intensity_profile img14 (img14.length - 1) img14.length = some rowQ := by
  decide

set_option maxRecDepth 100000 in
/-- Concrete evaluation: the source's top band of `img11` is row 10 alone,
which exists. -/
theorem mean_profile_img11_top : get_mean_intensity_profile img11 10 11 = some rowQ := by
  decide

set_option maxRecDepth 100000 in
/-- Concrete evaluation: the source's bottom band of `img11` is its last row
(row 10) alone. -/
theorem mean_profile_img11_bottom :
    get_mean_intensity_profile img11 (img11.length - 1) img11.length = some rowQ := by
  decide

set_option maxRecDepth 100000 in
/-- Concrete evaluation: the claim's two-row top band of `img11` reads row 11,
which is out of range in an 11-row image — a Python `IndexError` (`none`),
raised before any filtering takes place. -/
theorem mean_profile_img11_claimed_top :
    get_mean_intensity_profile img11 10 12 = none := by
  decide

set_option maxRecDepth 100000 in
/-- Concrete evaluation: the claim's two-row bottom band of `img11` (rows 9
and 10, both `rowP`). -/
theorem mean_profile_img11_claimed_bottom :
    get_mean_intensity_profile img11 (img11.length - 2) img11.length = some rowQ := by
  decide

/-- The claim's two-row-band rotation fails on `img11` for EVERY smoothing
filter: reading row 11 of an 11-row image is an `IndexError` that occurs
before the filter collaborator is ever consulted. -/
theorem rotation_claimed_img11_none (E : ExternalOps) :
    get_rotation_claimed E img11 1 = none := by
  simp only [get_rotation_claimed, mean_profile_img11_claimed_top,
    mean_profile_img11_claimed_bottom]

/-- Witness for C7 (amended) on `img14`: both single-row band profiles are
`rowQ` and the rotation result exists. -/
theorem rotation_single_row_bands_witness :
    get_mean_intensity_profile img14 10 11 = some rowQ ∧
    get_mean_intensity_profile img14 (img14.length - 1) img14.length = some rowQ ∧
    ∃ m s, get_rotation idOps img14 1 = some (m, s) :=
  ⟨mean_profile_img14_top, mean_profile_img14_bottom,
    ⟨_, _, rotation_single_row_bands idOps img14 1 rowQ rowQ [0] [0]
      (npStd [0]) (npStd [0]) mean_profile_img14_top mean_profile_img14_bottom
      translation_rowQ_eval translation_rowQ_eval⟩⟩

/-- C7 (counterexample to the claim as stated): on the 11-row image `img11`
the claim's top band "rows 10-11" reads row 11, which does not exist, so the
claimed computation fails with an `IndexError` (`none`) no matter what the
smoothing filter does (see `rotation_claimed_img11_none`, quantified over all
filters: the failure precedes any filtering); the source's `get_rotation`
reads only row 10 and returns normally.  The two computations disagree. -/
theorem rotation_band_claim_counterexample :
    get_rotation idOps img11 1 ≠ get_rotation_claimed idOps img11 1 := by
  have hcode : get_rotation idOps img11 1 = some (some 0, some 0) := by
    rw [get_rotation_eq idOps img11 1 rowQ rowQ [0] [0] (npStd [0]) (npStd [0])
      mean_profile_img11_top mean_profile_img11_bottom
      translation_rowQ_eval translation_rowQ_eval]
    have hf : |rad2deg (arctan2 ((([0] : List ℚ).getD 0 0 : ℝ) -
        (([0] : List ℚ).getD 0 0 : ℝ)) ((img11.length : ℝ) * ((1 : ℚ) : ℝ)))| / 2 = 0 := by
      rw [sub_self, arctan2_zero_nonneg _ (by positivity)]
      simp [rad2deg]
    have h1 : min ([0] : List ℚ).length ([0] : List ℚ).length = 1 := rfl
    have h2 : List.range 1 = [0] := rfl
    rw [h1, h2, List.map_cons, List.map_nil, hf]
    norm_num [npMeanR, npStdR]
  have hclaim : get_rotation_claimed idOps img11 1 = none :=
    rotation_claimed_img11_none idOps
  rw [hcode, hclaim]
  simp

end Theorems

end ImageProcessing
